import Mathlib

/-!
Shallow embedding of the managed-cluster migration-from syncer
(agent/pkg/spec/syncers/migration_from_syncer.go).

The Go code is written against the abstract `client.Client` interface of
controller-runtime; we mirror that by parametrising every operation over a
`KClient σ` record of store operations threading a state `σ`.  The standard
instance `hubClient` interprets the operations over a sequential in-memory
store (`HubStore`) together with a trace of issued operations (`Op`), which
is the read-after-write-consistent store the specification assumes.
-/

/-- Errors returned by the resource store, mirroring the Kubernetes
apimachinery error kinds distinguished by the syncer (`apierrors.IsNotFound`
is the only discriminator the code uses). -/
inductive KErr where
  | notFound
  | alreadyExists
  | other (code : Nat)
deriving DecidableEq, Repr

/-- Association-list lookup with map semantics (first binding wins). -/
def alistLookup {κ α : Type} [DecidableEq κ] : List (κ × α) → κ → Option α
  | [], _ => none
  | (k, v) :: rest, k' => if k' = k then some v else alistLookup rest k'

/-- Remove every binding of a key. -/
def alistErase {κ α : Type} [DecidableEq κ] : List (κ × α) → κ → List (κ × α)
  | [], _ => []
  | (k, v) :: rest, k' => if k' = k then alistErase rest k' else (k, v) :: alistErase rest k'

/-- Insert or replace a binding (map update semantics). -/
def alistInsert {κ α : Type} [DecidableEq κ] (l : List (κ × α)) (k : κ) (v : α) :
    List (κ × α) :=
  (k, v) :: alistErase l k

/-- A `corev1.Secret`: object metadata (name, namespace) plus the opaque
`Data` map of key-value byte blobs. -/
structure Secret where
  name : String
  ns : String
  data : List (String × List Nat)
deriving DecidableEq, Repr

/-- A `metav1.Condition` as used in `ManagedCluster.Status.Conditions`:
only the `Type` and `Status` fields are consulted by the syncer. -/
structure Condition where
  condType : String
  status : String
deriving DecidableEq, Repr

/-- A `clusterv1.ManagedCluster`: name, annotation map, status conditions. -/
structure ManagedCluster where
  name : String
  annotations : List (String × String)
  conditions : List Condition
deriving DecidableEq, Repr

/-- An `operatorv1.KubeConfigSecret` reference (by name only). -/
structure KubeConfigSecret where
  name : String
deriving DecidableEq, Repr

/-- A `klusterletv1alpha1.KlusterletConfig`: cluster-scoped, addressed by
name; `kubeConfigSecrets` flattens the source's
`Spec.BootstrapKubeConfigs.LocalSecrets.KubeConfigSecrets` path. -/
structure KlusterletConfig where
  name : String
  kubeConfigSecrets : List KubeConfigSecret
deriving DecidableEq, Repr

/-- The decoded `bundleevent.ManagedClusterMigrationFromEvent` payload. -/
structure ManagedClusterMigrationFromEvent where
  managedClusters : List String
  bootstrapSecret : Secret
  klusterletConfig : KlusterletConfig
deriving DecidableEq, Repr

/-- `bootstrapSecretBackupSuffix` from the source. -/
def bootstrapSecretBackupSuffix : String := "-backup"

/-- The klusterlet-config annotation key written by the annotator stage
("agent.open-cluster-management.io/klusterlet-config"). -/
def klusterletConfigAnnotationKey : String :=
  "agent.open-cluster-management.io/klusterlet-config"

/-- Modelled from the spec: the "migrating" marker annotation key
(`constants.ManagedClusterMigrating`); the constants package is not part of
the shown sources.  The spec describes it as a presence-only flag marking a
cluster as migrating; only its identity as a key distinct from the
klusterlet-config annotation matters here. -/
def managedClusterMigratingKey : String :=
  "global-hub.open-cluster-management.io/migrating"

/-- `clusterv1.ManagedClusterConditionAvailable`. -/
def managedClusterConditionAvailable : String := "ManagedClusterConditionAvailable"

/-- `metav1.ConditionUnknown`. -/
def conditionUnknown : String := "Unknown"

/-- `meta.IsStatusConditionPresentAndEqual`: find the condition with the
given type; true iff it exists and its status equals the given status. -/
def isStatusConditionPresentAndEqual (conditions : List Condition)
    (t s : String) : Bool :=
  match conditions.find? (fun c => c.condType == t) with
  | some c => c.status == s
  | none => false

/-- One operation issued against the store, recorded in the trace of the
concrete store client. -/
inductive Op where
  | getSecret (ns name : String)
  | createSecret (s : Secret)
  | updateSecret (s : Secret)
  | getKlusterletConfig (name : String)
  | createKlusterletConfig (c : KlusterletConfig)
  | getManagedCluster (name : String)
  | updateManagedCluster (m : ManagedCluster)
  | deleteManagedCluster (name : String)
deriving DecidableEq, Repr

/-- The sequential resource store: secrets keyed by (namespace, name),
klusterlet configs and managed clusters keyed by name. -/
structure HubStore where
  secrets : List ((String × String) × Secret)
  klusterletConfigs : List (String × KlusterletConfig)
  managedClusters : List (String × ManagedCluster)
deriving DecidableEq, Repr

/-- Concrete client state: the store plus the trace of issued operations. -/
abbrev HubState := HubStore × List Op

/-- The abstract store client the syncer is written against
(`client.Client` in the source), threading a client state `σ`. -/
structure KClient (σ : Type) where
  getSecret : σ → String → String → Except KErr Secret × σ
  createSecret : σ → Secret → Except KErr Unit × σ
  updateSecret : σ → Secret → Except KErr Unit × σ
  getKlusterletConfig : σ → String → Except KErr KlusterletConfig × σ
  createKlusterletConfig : σ → KlusterletConfig → Except KErr Unit × σ
  getManagedCluster : σ → String → Except KErr ManagedCluster × σ
  updateManagedCluster : σ → ManagedCluster → Except KErr Unit × σ
  deleteManagedCluster : σ → String → Except KErr Unit × σ

def hubGetSecret (p : HubState) (ns name : String) : Except KErr Secret × HubState :=
  match alistLookup p.1.secrets (ns, name) with
  | some s => (Except.ok s, (p.1, p.2 ++ [Op.getSecret ns name]))
  | none => (Except.error KErr.notFound, (p.1, p.2 ++ [Op.getSecret ns name]))

def hubCreateSecret (p : HubState) (s : Secret) : Except KErr Unit × HubState :=
  match alistLookup p.1.secrets (s.ns, s.name) with
  | some _ => (Except.error KErr.alreadyExists, (p.1, p.2 ++ [Op.createSecret s]))
  | none =>
    (Except.ok (),
      ({ p.1 with secrets := alistInsert p.1.secrets (s.ns, s.name) s },
        p.2 ++ [Op.createSecret s]))

def hubUpdateSecret (p : HubState) (s : Secret) : Except KErr Unit × HubState :=
  match alistLookup p.1.secrets (s.ns, s.name) with
  | some _ =>
    (Except.ok (),
      ({ p.1 with secrets := alistInsert p.1.secrets (s.ns, s.name) s },
        p.2 ++ [Op.updateSecret s]))
  | none => (Except.error KErr.notFound, (p.1, p.2 ++ [Op.updateSecret s]))

def hubGetKlusterletConfig (p : HubState) (name : String) :
    Except KErr KlusterletConfig × HubState :=
  match alistLookup p.1.klusterletConfigs name with
  | some c => (Except.ok c, (p.1, p.2 ++ [Op.getKlusterletConfig name]))
  | none => (Except.error KErr.notFound, (p.1, p.2 ++ [Op.getKlusterletConfig name]))

def hubCreateKlusterletConfig (p : HubState) (c : KlusterletConfig) :
    Except KErr Unit × HubState :=
  match alistLookup p.1.klusterletConfigs c.name with
  | some _ => (Except.error KErr.alreadyExists, (p.1, p.2 ++ [Op.createKlusterletConfig c]))
  | none =>
    (Except.ok (),
      ({ p.1 with klusterletConfigs := alistInsert p.1.klusterletConfigs c.name c },
        p.2 ++ [Op.createKlusterletConfig c]))

def hubGetManagedCluster (p : HubState) (name : String) :
    Except KErr ManagedCluster × HubState :=
  match alistLookup p.1.managedClusters name with
  | some m => (Except.ok m, (p.1, p.2 ++ [Op.getManagedCluster name]))
  | none => (Except.error KErr.notFound, (p.1, p.2 ++ [Op.getManagedCluster name]))

def hubUpdateManagedCluster (p : HubState) (m : ManagedCluster) :
    Except KErr Unit × HubState :=
  match alistLookup p.1.managedClusters m.name with
  | some _ =>
    (Except.ok (),
      ({ p.1 with managedClusters := alistInsert p.1.managedClusters m.name m },
        p.2 ++ [Op.updateManagedCluster m]))
  | none => (Except.error KErr.notFound, (p.1, p.2 ++ [Op.updateManagedCluster m]))

def hubDeleteManagedCluster (p : HubState) (name : String) :
    Except KErr Unit × HubState :=
  match alistLookup p.1.managedClusters name with
  | some _ =>
    (Except.ok (),
      ({ p.1 with managedClusters := alistErase p.1.managedClusters name },
        p.2 ++ [Op.deleteManagedCluster name]))
  | none => (Except.error KErr.notFound, (p.1, p.2 ++ [Op.deleteManagedCluster name]))

/-- The concrete sequential store client with operation tracing. -/
def hubClient : KClient HubState :=
  { getSecret := hubGetSecret
    createSecret := hubCreateSecret
    updateSecret := hubUpdateSecret
    getKlusterletConfig := hubGetKlusterletConfig
    createKlusterletConfig := hubCreateKlusterletConfig
    getManagedCluster := hubGetManagedCluster
    updateManagedCluster := hubUpdateManagedCluster
    deleteManagedCluster := hubDeleteManagedCluster }

/-!
The `Sync` pipeline (migration_from_syncer.go, lines 41-160) and the
detachment poll loop `detachManagedClusters` (lines 162-186).  `Sync`
operates on the already-decoded event; the `json.Unmarshal` decode step
(lines 43-46) precedes everything modelled here and fails the run on its
own, independently of the store.
-/

/-- The create-or-update block (lines 51-70 for the primary secret and
81-100 for the backup): get; on NotFound create; on any other get error
abort; if found, overwrite with the given object. -/
def upsertSecret {σ : Type} (cl : KClient σ) (st : σ) (s : Secret) :
    Except KErr Unit × σ :=
  match cl.getSecret st s.ns s.name with
  | (Except.error KErr.notFound, st1) => cl.createSecret st1 s
  | (Except.error e, st1) => (Except.error e, st1)
  | (Except.ok _, st1) => cl.updateSecret st1 s

/-- The backup secret derived at lines 73-79: primary name plus the fixed
suffix, same namespace, data aliased from the instruction's secret. -/
def backupOf (bootstrapSecret : Secret) : Secret :=
  { name := bootstrapSecret.name ++ bootstrapSecretBackupSuffix
    ns := bootstrapSecret.ns
    data := bootstrapSecret.data }

/-- Credential Propagator stage (lines 48-100): upsert the primary
bootstrap secret, then the derived backup secret. -/
def syncBootstrapSecrets {σ : Type} (cl : KClient σ) (st : σ)
    (bootstrapSecret : Secret) : Except KErr Unit × σ :=
  match upsertSecret cl st bootstrapSecret with
  | (Except.error e, st1) => (Except.error e, st1)
  | (Except.ok _, st1) => upsertSecret cl st1 (backupOf bootstrapSecret)

/-- The in-memory mutation at lines 104-112: the instruction's klusterlet
config with its kubeconfig-secret reference list set to exactly
[primary, backup]. -/
def provisionedConfig (ev : ManagedClusterMigrationFromEvent) : KlusterletConfig :=
  { ev.klusterletConfig with
    kubeConfigSecrets :=
      [{ name := ev.bootstrapSecret.name },
        { name := ev.bootstrapSecret.name ++ bootstrapSecretBackupSuffix }] }

/-- Target-Config Provisioner stage (lines 113-126): get the config by
name; on NotFound create it as given; on any other get error abort; if
found, do nothing. -/
def ensureKlusterletConfig {σ : Type} (cl : KClient σ) (st : σ)
    (kc : KlusterletConfig) : Except KErr Unit × σ :=
  match cl.getKlusterletConfig st kc.name with
  | (Except.error KErr.notFound, st1) => cl.createKlusterletConfig st1 kc
  | (Except.error e, st1) => (Except.error e, st1)
  | (Except.ok _, st1) => (Except.ok (), st1)

/-- The idempotency guard at lines 142-145: the migrating marker is present
and the recorded klusterlet-config annotation (empty string when absent,
as Go map indexing yields the zero value) equals the config name. -/
def alreadyAnnotated (annotations : List (String × String)) (kcName : String) : Bool :=
  (alistLookup annotations managedClusterMigratingKey).isSome
    && ((alistLookup annotations klusterletConfigAnnotationKey).getD "" == kcName)

/-- Membership Annotator stage (lines 128-152): for each cluster name in
order, get the cluster (any error, NotFound included, aborts the run);
skip when the idempotency guard holds; otherwise set the klusterlet-config
annotation and the migrating marker and update the object. -/
def annotateManagedClusters {σ : Type} (cl : KClient σ) (kcName : String) :
    σ → List String → Except KErr Unit × σ
  | st, [] => (Except.ok (), st)
  | st, name :: rest =>
    match cl.getManagedCluster st name with
    | (Except.error e, st1) => (Except.error e, st1)
    | (Except.ok mcl, st1) =>
      if alreadyAnnotated mcl.annotations kcName then
        annotateManagedClusters cl kcName st1 rest
      else
        let annotations1 := alistInsert mcl.annotations klusterletConfigAnnotationKey kcName
        let annotations2 := alistInsert annotations1 managedClusterMigratingKey ""
        match cl.updateManagedCluster st1 { mcl with annotations := annotations2 } with
        | (Except.error e, st2) => (Except.error e, st2)
        | (Except.ok _, st2) => annotateManagedClusters cl kcName st2 rest

/-- One pass of the poll condition function (lines 163-185): for each
cluster name in order, get it; NotFound skips to the next cluster; any
other get error aborts the wait; if the Availability condition is present
and Unknown delete it (a delete error aborts the wait) and move on;
otherwise the pass is incomplete (`ok false`) and stops immediately. -/
def detachTickAux {σ : Type} (cl : KClient σ) : σ → List String → Except KErr Bool × σ
  | st, [] => (Except.ok true, st)
  | st, name :: rest =>
    match cl.getManagedCluster st name with
    | (Except.error KErr.notFound, st1) => detachTickAux cl st1 rest
    | (Except.error e, st1) => (Except.error e, st1)
    | (Except.ok mcl, st1) =>
      if isStatusConditionPresentAndEqual mcl.conditions
          managedClusterConditionAvailable conditionUnknown then
        match cl.deleteManagedCluster st1 name with
        | (Except.error e, st2) => (Except.error e, st2)
        | (Except.ok _, st2) => detachTickAux cl st2 rest
      else
        (Except.ok false, st1)

/-- Outcome of the poll loop: the condition returned true; the condition
returned an error; or the caller's context was cancelled first. -/
inductive PollStatus where
  | success
  | failure (e : KErr)
  | cancelled
deriving DecidableEq, Repr

/-- `wait.PollUntilContextCancel` at line 163 with immediate=true: run the
condition; done ends with success, an error ends the wait with that error,
otherwise wait out the 2-second interval and retry the whole list.  The
interval list `ext` supplies, per gap between ticks, the interference of
external actors on the client state; exhausting it models the caller's
cancellation. -/
def detachManagedClusters {σ : Type} (cl : KClient σ) (names : List String) :
    σ → List (σ → σ) → PollStatus × σ
  | st, [] =>
    match detachTickAux cl st names with
    | (Except.ok true, st1) => (PollStatus.success, st1)
    | (Except.ok false, st1) => (PollStatus.cancelled, st1)
    | (Except.error e, st1) => (PollStatus.failure e, st1)
  | st, f :: rest =>
    match detachTickAux cl st names with
    | (Except.ok true, st1) => (PollStatus.success, st1)
    | (Except.ok false, st1) => detachManagedClusters cl names (f st1) rest
    | (Except.error e, st1) => (PollStatus.failure e, st1)

/-- `Sync` (lines 41-160) after the decode step: Credential Propagator,
Target-Config Provisioner, Membership Annotator in sequence, each aborting
the run on error; then the Detachment Confirmer, whose error is only
logged (line 156) — `Sync` returns success regardless of its outcome. -/
def Sync {σ : Type} (cl : KClient σ) (ev : ManagedClusterMigrationFromEvent)
    (st : σ) (ext : List (σ → σ)) : Except KErr Unit × σ :=
  match syncBootstrapSecrets cl st ev.bootstrapSecret with
  | (Except.error e, st1) => (Except.error e, st1)
  | (Except.ok _, st1) =>
    match ensureKlusterletConfig cl st1 (provisionedConfig ev) with
    | (Except.error e, st2) => (Except.error e, st2)
    | (Except.ok _, st2) =>
      match annotateManagedClusters cl (provisionedConfig ev).name st2 ev.managedClusters with
      | (Except.error e, st3) => (Except.error e, st3)
      | (Except.ok _, st3) =>
        (Except.ok (), (detachManagedClusters cl ev.managedClusters st3 ext).2)

/-- Store well-formedness as Kubernetes guarantees it: every managed
cluster is stored under its own name. -/
def wfManagedClusters (store : HubStore) : Prop :=
  ∀ e ∈ store.managedClusters, e.2.name = e.1

/-- A cluster present in the store whose status carries no Availability
condition at all. -/
def blockedCluster (c : String) (p : HubState) : Prop :=
  ∃ m, alistLookup p.1.managedClusters c = some m ∧
    m.conditions.find? (fun x => x.condType == managedClusterConditionAvailable) = none

/-- A managed cluster observed with its Availability condition Unknown. -/
def mcUnknownRacy : ManagedCluster :=
  { name := "c1"
    annotations := []
    conditions := [{ condType := managedClusterConditionAvailable, status := conditionUnknown }] }

/-- A client realising the §5 concurrency race: the get still observes the
cluster (Availability Unknown), but a concurrent run deletes the object
before our delete, so the delete returns NotFound. -/
def racyClient : KClient Unit :=
  { getSecret := fun u _ _ => (Except.error KErr.notFound, u)
    createSecret := fun u _ => (Except.ok (), u)
    updateSecret := fun u _ => (Except.ok (), u)
    getKlusterletConfig := fun u _ => (Except.error KErr.notFound, u)
    createKlusterletConfig := fun u _ => (Except.ok (), u)
    getManagedCluster := fun u _ => (Except.ok mcUnknownRacy, u)
    updateManagedCluster := fun u _ => (Except.ok (), u)
    deleteManagedCluster := fun u _ => (Except.error KErr.notFound, u) }

/-! Concrete fixtures used to instantiate the general theorems. -/

def secW : Secret := { name := "boot", ns := "agentns", data := [("kubeconfig", [7, 7])] }

def kcW : KlusterletConfig := { name := "migration-kc", kubeConfigSecrets := [] }

def evW : ManagedClusterMigrationFromEvent :=
  { managedClusters := ["c1"]
    bootstrapSecret := secW
    klusterletConfig := kcW }

def evEmptyW : ManagedClusterMigrationFromEvent :=
  { managedClusters := []
    bootstrapSecret := secW
    klusterletConfig := kcW }

def emptyStore : HubStore :=
  { secrets := []
    klusterletConfigs := []
    managedClusters := [] }

def mcUnknownW : ManagedCluster :=
  { name := "c1"
    annotations := []
    conditions := [{ condType := managedClusterConditionAvailable, status := conditionUnknown }] }

def mcTrueW : ManagedCluster :=
  { name := "c2"
    annotations := []
    conditions := [{ condType := managedClusterConditionAvailable, status := "True" }] }

def mcNoCondW : ManagedCluster :=
  { name := "c1"
    annotations := []
    conditions := [] }

def mcAnnotatedW : ManagedCluster :=
  { name := "c1"
    annotations := [(managedClusterMigratingKey, ""),
      (klusterletConfigAnnotationKey, "migration-kc")]
    conditions := [] }

def storeUnknownW : HubStore :=
  { secrets := []
    klusterletConfigs := []
    managedClusters := [("c1", mcUnknownW)] }

def storeTrueW : HubStore :=
  { secrets := []
    klusterletConfigs := []
    managedClusters := [("c2", mcTrueW)] }

def storeNoCondW : HubStore :=
  { secrets := []
    klusterletConfigs := []
    managedClusters := [("c1", mcNoCondW)] }

def storeAnnotatedW : HubStore :=
  { secrets := []
    klusterletConfigs := []
    managedClusters := [("c1", mcAnnotatedW)] }

def storeKcPresentW : HubStore :=
  { secrets := []
    klusterletConfigs := [("migration-kc", kcW)]
    managedClusters := [] }

/-! Association-list and naming facts used throughout. -/

theorem alistLookup_erase {κ α : Type} [DecidableEq κ] (l : List (κ × α)) (k k' : κ) :
    alistLookup (alistErase l k) k' = if k' = k then none else alistLookup l k' := by
  induction l with
  | nil => simp [alistErase, alistLookup]
  | cons hd tl ih =>
    obtain ⟨hk, hv⟩ := hd
    by_cases h1 : k = hk <;> by_cases h2 : k' = hk <;> by_cases h3 : k' = k <;>
      simp_all [alistErase, alistLookup]

theorem alistLookup_insert {κ α : Type} [DecidableEq κ] (l : List (κ × α)) (k k' : κ)
    (v : α) :
    alistLookup (alistInsert l k v) k' = if k' = k then some v else alistLookup l k' := by
  by_cases h : k' = k <;>
    simp [alistInsert, alistLookup, alistLookup_erase, h]

theorem backupName_ne (s : String) : s ++ bootstrapSecretBackupSuffix ≠ s := by
  intro h
  have h2 := congrArg String.length h
  rw [String.length_append] at h2
  have h3 : bootstrapSecretBackupSuffix.length = 7 := rfl
  omega

/-- On the sequential store the create-or-update secret block always
succeeds and leaves the secret stored under its own key, regardless of
whether it pre-existed (with any data). -/
theorem upsertSecret_hub (store : HubStore) (ops : List Op) (s : Secret) :
    ∃ tr : List Op, upsertSecret hubClient (store, ops) s =
      (Except.ok (),
        ({ store with secrets := alistInsert store.secrets (s.ns, s.name) s },
          ops ++ tr)) := by
  unfold upsertSecret
  cases hA : alistLookup store.secrets (s.ns, s.name) with
  | none =>
    exact ⟨[Op.getSecret s.ns s.name, Op.createSecret s],
      by simp [hubClient, hubGetSecret, hubCreateSecret, hA]⟩
  | some v =>
    exact ⟨[Op.getSecret s.ns s.name, Op.updateSecret s],
      by simp [hubClient, hubGetSecret, hubUpdateSecret, hA]⟩

/-- C3: for every instruction and every prior store state (a pre-existing
primary with different data included), immediately after the Credential
Propagator stage completes — and it does complete successfully on the
sequential store — the backup secret (primary name plus the fixed
"-backup" suffix, in the primary's namespace) exists with data
byte-identical to the instruction's credential payload, the primary holds
that same data, and the backup's data field is the instruction's data
(taken from the instruction, not re-read from the store). -/
theorem backup_secret_byte_identical (store : HubStore) (ops : List Op) (s : Secret) :
    (syncBootstrapSecrets hubClient (store, ops) s).1 = Except.ok () ∧
    alistLookup (syncBootstrapSecrets hubClient (store, ops) s).2.1.secrets
      (s.ns, s.name ++ bootstrapSecretBackupSuffix) = some (backupOf s) ∧
    alistLookup (syncBootstrapSecrets hubClient (store, ops) s).2.1.secrets
      (s.ns, s.name) = some s ∧
    (backupOf s).data = s.data := by
  have hne : ((s.ns, s.name ++ bootstrapSecretBackupSuffix) : String × String) ≠
      (s.ns, s.name) := by
    intro h
    exact backupName_ne s.name (congrArg Prod.snd h)
  have hne2 : ((s.ns, s.name) : String × String) ≠
      (s.ns, s.name ++ bootstrapSecretBackupSuffix) := Ne.symm hne
  obtain ⟨tr1, h1⟩ := upsertSecret_hub store ops s
  obtain ⟨tr2, h2⟩ := upsertSecret_hub
    { store with secrets := alistInsert store.secrets (s.ns, s.name) s }
    (ops ++ tr1) (backupOf s)
  unfold syncBootstrapSecrets
  simp only [h1]
  simp only [h2]
  simp [backupOf, alistLookup_insert, hne2]

/-- C8: the Target-Config Provisioner sets the instruction's config
reference list to exactly [primary, backup] in that order; when no config
of that name exists it is created as given (so the stored reference list
is exactly [primary, backup]); when one exists the stage issues no store
write and raises no error. -/
theorem klusterletConfig_provisioning (ev : ManagedClusterMigrationFromEvent)
    (store : HubStore) (ops : List Op) :
    (provisionedConfig ev).kubeConfigSecrets =
      [{ name := ev.bootstrapSecret.name },
        { name := ev.bootstrapSecret.name ++ bootstrapSecretBackupSuffix }] ∧
    (alistLookup store.klusterletConfigs (provisionedConfig ev).name = none →
      ensureKlusterletConfig hubClient (store, ops) (provisionedConfig ev) =
        (Except.ok (),
          ({ store with klusterletConfigs := alistInsert store.klusterletConfigs (provisionedConfig ev).name (provisionedConfig ev) },
            ops ++ [Op.getKlusterletConfig (provisionedConfig ev).name,
              Op.createKlusterletConfig (provisionedConfig ev)])) ∧
      alistLookup
        (ensureKlusterletConfig hubClient (store, ops) (provisionedConfig ev)).2.1.klusterletConfigs
        (provisionedConfig ev).name = some (provisionedConfig ev)) ∧
    (∀ kc0, alistLookup store.klusterletConfigs (provisionedConfig ev).name = some kc0 →
      ensureKlusterletConfig hubClient (store, ops) (provisionedConfig ev) =
        (Except.ok (), (store, ops ++ [Op.getKlusterletConfig (provisionedConfig ev).name]))) := by
  refine ⟨rfl, ?_, ?_⟩
  · intro h
    have he : ensureKlusterletConfig hubClient (store, ops) (provisionedConfig ev) =
        (Except.ok (),
          ({ store with klusterletConfigs := alistInsert store.klusterletConfigs (provisionedConfig ev).name (provisionedConfig ev) },
            ops ++ [Op.getKlusterletConfig (provisionedConfig ev).name,
              Op.createKlusterletConfig (provisionedConfig ev)])) := by
      unfold ensureKlusterletConfig
      simp [hubClient, hubGetKlusterletConfig, hubCreateKlusterletConfig, h]
    refine ⟨he, ?_⟩
    rw [he]
    simp [alistLookup_insert]
  · intro kc0 h
    unfold ensureKlusterletConfig
    simp [hubClient, hubGetKlusterletConfig, h]

/-- Witness for C8 at concrete inputs: creating into a store without the
config, and the silent no-op on a store that already has it. -/
theorem klusterletConfig_provisioning_witness :
    alistLookup
      (ensureKlusterletConfig hubClient (emptyStore, []) (provisionedConfig evW)).2.1.klusterletConfigs
      (provisionedConfig evW).name = some (provisionedConfig evW) ∧
    ensureKlusterletConfig hubClient (storeKcPresentW, []) (provisionedConfig evW) =
      (Except.ok (), (storeKcPresentW, [Op.getKlusterletConfig (provisionedConfig evW).name])) :=
  ⟨((klusterletConfig_provisioning evW emptyStore []).2.1 (by decide)).2,
    by
      have h := (klusterletConfig_provisioning evW storeKcPresentW []).2.2 kcW (by decide)
      simpa using h⟩

/-- Step equation for a confirmer pass on a non-empty cluster list. -/
theorem detachTickAux_cons {σ : Type} (cl : KClient σ) (st : σ) (name : String)
    (rest : List String) :
    detachTickAux cl st (name :: rest) =
      match cl.getManagedCluster st name with
      | (Except.error KErr.notFound, st1) => detachTickAux cl st1 rest
      | (Except.error e, st1) => (Except.error e, st1)
      | (Except.ok mcl, st1) =>
        if isStatusConditionPresentAndEqual mcl.conditions
            managedClusterConditionAvailable conditionUnknown then
          match cl.deleteManagedCluster st1 name with
          | (Except.error e, st2) => (Except.error e, st2)
          | (Except.ok _, st2) => detachTickAux cl st2 rest
        else
          (Except.ok false, st1) := rfl

/-- C7: NotFound on fetching a managed cluster is handled asymmetrically.
In the Membership Annotator, a get returning NotFound aborts the whole run
with that error, issuing nothing further; in the Detachment Confirmer, a
get returning NotFound skips the cluster without error and the pass
continues with the remaining clusters. -/
theorem managedCluster_notFound_asymmetry :
    (∀ (store : HubStore) (ops : List Op) (kcName c : String) (rest : List String),
      alistLookup store.managedClusters c = none →
      annotateManagedClusters hubClient kcName (store, ops) (c :: rest) =
        (Except.error KErr.notFound, (store, ops ++ [Op.getManagedCluster c]))) ∧
    (∀ (store : HubStore) (ops : List Op) (c : String) (rest : List String),
      alistLookup store.managedClusters c = none →
      detachTickAux hubClient (store, ops) (c :: rest) =
        detachTickAux hubClient (store, ops ++ [Op.getManagedCluster c]) rest) := by
  constructor
  · intro store ops kcName c rest h
    unfold annotateManagedClusters
    simp [hubClient, hubGetManagedCluster, h]
  · intro store ops c rest h
    rw [detachTickAux_cons]
    simp [hubClient, hubGetManagedCluster, h]

/-- Witness for C7 at a concrete input: an empty store; the annotator run
aborts with NotFound while the confirmer tick skips the missing cluster
and completes. -/
theorem managedCluster_notFound_asymmetry_witness :
    annotateManagedClusters hubClient "migration-kc" (emptyStore, []) ["c1"] =
      (Except.error KErr.notFound, (emptyStore, [Op.getManagedCluster "c1"])) ∧
    detachTickAux hubClient (emptyStore, []) ["c1"] =
      detachTickAux hubClient (emptyStore, [Op.getManagedCluster "c1"]) [] := by
  constructor
  · have h := managedCluster_notFound_asymmetry.1 emptyStore [] "migration-kc" "c1" [] (by decide)
    simpa using h
  · have h := managedCluster_notFound_asymmetry.2 emptyStore [] "c1" [] (by decide)
    simpa using h

theorem alistLookup_mem {κ α : Type} [DecidableEq κ] (l : List (κ × α)) (k : κ) (v : α)
    (h : alistLookup l k = some v) : (k, v) ∈ l := by
  induction l with
  | nil => simp [alistLookup] at h
  | cons hd tl ih =>
    obtain ⟨hk, hv⟩ := hd
    by_cases hkk : k = hk
    · subst hkk
      simp [alistLookup] at h
      subst h
      exact List.mem_cons_self _ _
    · simp [alistLookup, hkk] at h
      exact List.mem_cons_of_mem _ (ih h)

theorem alistErase_subset {κ α : Type} [DecidableEq κ] (l : List (κ × α)) (k : κ)
    (e : κ × α) (h : e ∈ alistErase l k) : e ∈ l := by
  induction l with
  | nil => simp [alistErase] at h
  | cons hd tl ih =>
    obtain ⟨hk, hv⟩ := hd
    by_cases hkk : k = hk
    · simp only [alistErase, if_pos hkk] at h
      exact List.mem_cons_of_mem _ (ih h)
    · simp only [alistErase, if_neg hkk] at h
      rcases List.mem_cons.mp h with h | h
      · simp [h]
      · exact List.mem_cons_of_mem _ (ih h)

/-- In a well-formed store a cluster looked up under a key carries that
key as its name. -/
theorem wf_lookup (store : HubStore) (hwf : wfManagedClusters store) (k : String)
    (m : ManagedCluster) (h : alistLookup store.managedClusters k = some m) :
    m.name = k :=
  hwf (k, m) (alistLookup_mem _ _ _ h)

/-- Step equation for the annotator on a non-empty cluster list. -/
theorem annotateManagedClusters_cons {σ : Type} (cl : KClient σ) (kcName : String)
    (st : σ) (name : String) (rest : List String) :
    annotateManagedClusters cl kcName st (name :: rest) =
      match cl.getManagedCluster st name with
      | (Except.error e, st1) => (Except.error e, st1)
      | (Except.ok mcl, st1) =>
        if alreadyAnnotated mcl.annotations kcName then
          annotateManagedClusters cl kcName st1 rest
        else
          match cl.updateManagedCluster st1
            { mcl with annotations := alistInsert (alistInsert mcl.annotations klusterletConfigAnnotationKey kcName) managedClusterMigratingKey "" } with
          | (Except.error e, st2) => (Except.error e, st2)
          | (Except.ok _, st2) => annotateManagedClusters cl kcName st2 rest := rfl

/-- C4: a cluster in the instruction's list that already carries the
migrating marker and whose klusterlet-config annotation equals the
instruction's config name is skipped by the Membership Annotator: its
store entry is unchanged by the whole stage, and the stage issues no
update for it (any update operation naming it in the final trace was
already in the initial trace); hence re-running the annotator on an
already-annotated batch writes nothing for those clusters. -/
theorem annotator_skips_already_annotated (names : List String) (store : HubStore)
    (ops : List Op) (kcName c : String) (m : ManagedCluster)
    (hwf : wfManagedClusters store)
    (hc : alistLookup store.managedClusters c = some m)
    (hmig : (alistLookup m.annotations managedClusterMigratingKey).isSome = true)
    (hkc : alistLookup m.annotations klusterletConfigAnnotationKey = some kcName) :
    alistLookup
      (annotateManagedClusters hubClient kcName (store, ops) names).2.1.managedClusters c
      = some m ∧
    ∀ m' : ManagedCluster, m'.name = c →
      Op.updateManagedCluster m' ∈
        (annotateManagedClusters hubClient kcName (store, ops) names).2.2 →
      Op.updateManagedCluster m' ∈ ops := by
  have hguard : alreadyAnnotated m.annotations kcName = true := by
    simp [alreadyAnnotated, hmig, hkc]
  revert store ops
  induction names with
  | nil =>
    intro store ops hwf hc
    exact ⟨hc, fun m' _ hm => hm⟩
  | cons n rest ih =>
    intro store ops hwf hc
    rw [annotateManagedClusters_cons]
    cases hn : alistLookup store.managedClusters n with
    | none =>
      simp only [hubClient, hubGetManagedCluster, hn]
      refine ⟨hc, ?_⟩
      intro m' hname hm
      rcases List.mem_append.mp hm with hm | hm
      · exact hm
      · simp at hm
    | some m2 =>
      simp only [hubClient, hubGetManagedCluster, hn]
      by_cases hg : alreadyAnnotated m2.annotations kcName
      · simp only [hg, if_true]
        obtain ⟨ha, hb⟩ := ih store (ops ++ [Op.getManagedCluster n]) hwf hc
        refine ⟨ha, ?_⟩
        intro m' hname hm
        have := hb m' hname hm
        rcases List.mem_append.mp this with h2 | h2
        · exact h2
        · simp at h2
      · rw [if_neg hg]
        have hname2 : m2.name = n := wf_lookup store hwf n m2 hn
        have hnc : n ≠ c := by
          intro hEq
          rw [hEq] at hn
          rw [hn] at hc
          injection hc with hc2
          rw [hc2] at hg
          exact hg hguard
        have hn2 : alistLookup store.managedClusters m2.name = some m2 := by
          rw [hname2]
          exact hn
        have hupd : hubUpdateManagedCluster (store, ops ++ [Op.getManagedCluster n]) { m2 with annotations := alistInsert (alistInsert m2.annotations klusterletConfigAnnotationKey kcName) managedClusterMigratingKey "" } = (Except.ok (), ({ store with managedClusters := alistInsert store.managedClusters m2.name { m2 with annotations := alistInsert (alistInsert m2.annotations klusterletConfigAnnotationKey kcName) managedClusterMigratingKey "" } }, ops ++ [Op.getManagedCluster n] ++ [Op.updateManagedCluster { m2 with annotations := alistInsert (alistInsert m2.annotations klusterletConfigAnnotationKey kcName) managedClusterMigratingKey "" }])) := by
          simp [hubUpdateManagedCluster, hn2]
        rw [hupd]
        obtain ⟨ha, hb⟩ := ih
          { store with managedClusters := alistInsert store.managedClusters m2.name { m2 with annotations := alistInsert (alistInsert m2.annotations klusterletConfigAnnotationKey kcName) managedClusterMigratingKey "" } }
          (ops ++ [Op.getManagedCluster n] ++
            [Op.updateManagedCluster
              { m2 with annotations := alistInsert (alistInsert m2.annotations klusterletConfigAnnotationKey kcName) managedClusterMigratingKey "" }])
          (by
            intro e he
            rcases List.mem_cons.mp he with he | he
            · rw [he]
            · exact hwf e (alistErase_subset _ _ _ he))
          (by
            rw [alistLookup_insert]
            rw [hname2]
            rw [if_neg (Ne.symm hnc)]
            exact hc)
        refine ⟨ha, ?_⟩
        intro m' hname hm
        have h4 := hb m' hname hm
        rcases List.mem_append.mp h4 with h2 | h2
        · rcases List.mem_append.mp h2 with h3 | h3
          · exact h3
          · simp at h3
        · exfalso
          simp at h2
          have h5 : m'.name = m2.name := by rw [h2]
          rw [hname, hname2] at h5
          exact hnc h5.symm

/-- Witness for C4 at a concrete input: one already-annotated cluster; the
annotator leaves its entry unchanged and issues no update for it. -/
theorem annotator_skips_already_annotated_witness :
    alistLookup
      (annotateManagedClusters hubClient "migration-kc" (storeAnnotatedW, []) ["c1"]).2.1.managedClusters
      "c1" = some mcAnnotatedW ∧
    ∀ m' : ManagedCluster, m'.name = "c1" →
      Op.updateManagedCluster m' ∈
        (annotateManagedClusters hubClient "migration-kc" (storeAnnotatedW, []) ["c1"]).2.2 →
      Op.updateManagedCluster m' ∈ ([] : List Op) :=
  annotator_skips_already_annotated ["c1"] storeAnnotatedW [] "migration-kc" "c1"
    mcAnnotatedW (by unfold wfManagedClusters; decide) (by decide) (by decide) (by decide)

/-- Step equation for the poll loop when cancellation follows this tick. -/
theorem detachLoop_nil {σ : Type} (cl : KClient σ) (names : List String) (st : σ) :
    detachManagedClusters cl names st [] =
      match detachTickAux cl st names with
      | (Except.ok true, st1) => (PollStatus.success, st1)
      | (Except.ok false, st1) => (PollStatus.cancelled, st1)
      | (Except.error e, st1) => (PollStatus.failure e, st1) := rfl

/-- Step equation for the poll loop with at least one interval left. -/
theorem detachLoop_cons {σ : Type} (cl : KClient σ) (names : List String) (st : σ)
    (f : σ → σ) (ext : List (σ → σ)) :
    detachManagedClusters cl names st (f :: ext) =
      match detachTickAux cl st names with
      | (Except.ok true, st1) => (PollStatus.success, st1)
      | (Except.ok false, st1) => detachManagedClusters cl names (f st1) ext
      | (Except.error e, st1) => (PollStatus.failure e, st1) := rfl

/-- A confirmer pass over a concatenation runs the first part and, only if
it completed, continues with the second from the resulting state. -/
theorem detachTickAux_append {σ : Type} (cl : KClient σ) (l1 l2 : List String) (st : σ) :
    detachTickAux cl st (l1 ++ l2) =
      match detachTickAux cl st l1 with
      | (Except.ok true, st1) => detachTickAux cl st1 l2
      | (Except.ok false, st1) => (Except.ok false, st1)
      | (Except.error e, st1) => (Except.error e, st1) := by
  induction l1 generalizing st with
  | nil => simp [detachTickAux]
  | cons n rest ih =>
    rw [List.cons_append, detachTickAux_cons, detachTickAux_cons]
    rcases hg : cl.getManagedCluster st n with ⟨r, st1⟩
    cases r with
    | error e => cases e <;> simp [ih]
    | ok mcl =>
      by_cases hcond : isStatusConditionPresentAndEqual mcl.conditions
        managedClusterConditionAvailable conditionUnknown
      · simp only [hcond, if_true]
        rcases hd : cl.deleteManagedCluster st1 n with ⟨r2, st2⟩
        cases r2 with
        | error e => simp
        | ok u => simp [ih]
      · simp [hcond]

/-- A cluster absent from the store stays absent through a confirmer pass
(the pass only deletes). -/
theorem detachTick_hub_lookup_none (names : List String) (store : HubStore)
    (ops : List Op) (c : String)
    (h : alistLookup store.managedClusters c = none) :
    alistLookup (detachTickAux hubClient (store, ops) names).2.1.managedClusters c
      = none := by
  induction names generalizing store ops with
  | nil => simpa [detachTickAux] using h
  | cons n rest ih =>
    rw [detachTickAux_cons]
    cases hn : alistLookup store.managedClusters n with
    | none =>
      simp only [hubClient, hubGetManagedCluster, hn]
      exact ih store (ops ++ [Op.getManagedCluster n]) h
    | some m2 =>
      by_cases hcond : isStatusConditionPresentAndEqual m2.conditions
        managedClusterConditionAvailable conditionUnknown
      · simp only [hubClient, hubGetManagedCluster, hn, hcond, if_true,
          hubDeleteManagedCluster]
        have h2 : alistLookup (alistErase store.managedClusters n) c = none := by
          rw [alistLookup_erase]
          by_cases hcn : c = n <;> simp [hcn, h]
        exact ih { store with managedClusters := alistErase store.managedClusters n }
          (ops ++ [Op.getManagedCluster n] ++ [Op.deleteManagedCluster n]) h2
      · simp only [hubClient, hubGetManagedCluster, hn, hcond, if_false]
        simpa using h

/-- On the sequential store a confirmer pass reports the batch complete
exactly when every cluster of the list is absent from the post-pass store. -/
theorem detachTick_hub_ok_true_iff (names : List String) (store : HubStore)
    (ops : List Op) :
    (detachTickAux hubClient (store, ops) names).1 = Except.ok true ↔
    ∀ c ∈ names,
      alistLookup (detachTickAux hubClient (store, ops) names).2.1.managedClusters c
        = none := by
  induction names generalizing store ops with
  | nil => simp [detachTickAux]
  | cons n rest ih =>
    cases hn : alistLookup store.managedClusters n with
    | none =>
      have hst : detachTickAux hubClient (store, ops) (n :: rest) =
          detachTickAux hubClient (store, ops ++ [Op.getManagedCluster n]) rest := by
        rw [detachTickAux_cons]
        simp [hubClient, hubGetManagedCluster, hn]
      rw [hst]
      constructor
      · intro ht c hcmem
        rcases List.mem_cons.mp hcmem with rfl | hcm
        · exact detachTick_hub_lookup_none rest store _ c hn
        · exact (ih store (ops ++ [Op.getManagedCluster n])).mp ht c hcm
      · intro hall
        exact (ih store (ops ++ [Op.getManagedCluster n])).mpr
          (fun c hcm => hall c (List.mem_cons_of_mem _ hcm))
    | some m2 =>
      by_cases hcond : isStatusConditionPresentAndEqual m2.conditions
        managedClusterConditionAvailable conditionUnknown
      · have hst : detachTickAux hubClient (store, ops) (n :: rest) =
            detachTickAux hubClient
              ({ store with managedClusters := alistErase store.managedClusters n },
                ops ++ [Op.getManagedCluster n] ++ [Op.deleteManagedCluster n]) rest := by
          rw [detachTickAux_cons]
          simp [hubClient, hubGetManagedCluster, hn, hcond, hubDeleteManagedCluster]
        rw [hst]
        have hngone : alistLookup
            (alistErase store.managedClusters n) n = none := by
          rw [alistLookup_erase]
          simp
        constructor
        · intro ht c hcmem
          rcases List.mem_cons.mp hcmem with rfl | hcm
          · exact detachTick_hub_lookup_none rest _ _ c hngone
          · exact (ih _ _).mp ht c hcm
        · intro hall
          exact (ih _ _).mpr (fun c hcm => hall c (List.mem_cons_of_mem _ hcm))
      · have hst : detachTickAux hubClient (store, ops) (n :: rest) =
            (Except.ok false, (store, ops ++ [Op.getManagedCluster n])) := by
          rw [detachTickAux_cons]
          simp [hubClient, hubGetManagedCluster, hn, hcond]
        rw [hst]
        constructor
        · intro ht
          cases ht
        · intro hall
          exfalso
          have h2 := hall n (List.mem_cons_self _ _)
          simp [hn] at h2

/-- A get against the sequential store reports NotFound exactly when the
cluster is absent. -/
theorem hubGetManagedCluster_notFound_iff (p : HubState) (c : String) :
    (hubGetManagedCluster p c).1 = Except.error KErr.notFound ↔
    alistLookup p.1.managedClusters c = none := by
  unfold hubGetManagedCluster
  cases h : alistLookup p.1.managedClusters c <;> simp [h]

/-- C1: the Detachment Confirmer returns success exactly when, for every
cluster name in the instruction's list, a final get of that cluster
returns NotFound: a pass reports the batch done iff every listed cluster
is absent from the store the pass leaves behind, and whenever the poll
loop ends in success a get of any listed cluster against the final state
returns NotFound. -/
theorem detach_success_iff_final_get_notFound :
    (∀ (store : HubStore) (ops : List Op) (names : List String),
      (detachTickAux hubClient (store, ops) names).1 = Except.ok true ↔
      ∀ c ∈ names,
        (hubGetManagedCluster (detachTickAux hubClient (store, ops) names).2 c).1 =
          Except.error KErr.notFound) ∧
    (∀ (store : HubStore) (ops : List Op) (names : List String)
        (ext : List (HubState → HubState)),
      (detachManagedClusters hubClient names (store, ops) ext).1 = PollStatus.success →
      ∀ c ∈ names,
        (hubGetManagedCluster (detachManagedClusters hubClient names (store, ops) ext).2 c).1 =
          Except.error KErr.notFound) := by
  constructor
  · intro store ops names
    rw [detachTick_hub_ok_true_iff]
    constructor
    · intro hall c hcm
      rw [hubGetManagedCluster_notFound_iff]
      exact hall c hcm
    · intro hall c hcm
      rw [← hubGetManagedCluster_notFound_iff]
      exact hall c hcm
  · intro store ops names ext
    induction ext generalizing store ops with
    | nil =>
      rw [detachLoop_nil]
      rcases ht : detachTickAux hubClient (store, ops) names with ⟨r, st1⟩
      cases r with
      | error e => simp
      | ok b =>
        cases b with
        | false => simp
        | true =>
          simp only
          intro _ c hcm
          rw [hubGetManagedCluster_notFound_iff]
          have h2 := (detachTick_hub_ok_true_iff names store ops).mp (by rw [ht]) c hcm
          rw [ht] at h2
          exact h2
    | cons f rest ih =>
      rw [detachLoop_cons]
      rcases ht : detachTickAux hubClient (store, ops) names with ⟨r, st1⟩
      cases r with
      | error e => simp
      | ok b =>
        cases b with
        | false =>
          simp only
          intro hs c hcm
          exact ih (f st1).1 (f st1).2 hs c hcm
        | true =>
          simp only
          intro _ c hcm
          rw [hubGetManagedCluster_notFound_iff]
          have h2 := (detachTick_hub_ok_true_iff names store ops).mp (by rw [ht]) c hcm
          rw [ht] at h2
          exact h2

/-- Witness for C1 at a concrete input: one cluster observed Unknown is
deleted within the pass, the loop returns success on the first tick, and
a final get of the cluster reports NotFound. -/
theorem detach_success_iff_final_get_notFound_witness :
    (detachManagedClusters hubClient ["c1"] (storeUnknownW, []) []).1 = PollStatus.success ∧
    ∀ c ∈ ["c1"],
      (hubGetManagedCluster (detachManagedClusters hubClient ["c1"] (storeUnknownW, []) []).2 c).1 =
        Except.error KErr.notFound :=
  ⟨by decide,
    detach_success_iff_final_get_notFound.2 storeUnknownW [] ["c1"] [] (by decide)⟩

/-- C6: within one confirmer tick clusters are processed in list order;
when a cluster is found with its Availability condition not Unknown the
pass stops there: the only operation issued past the already-processed
prefix is the get of the blocking cluster (none for any later cluster),
the tick returns incomplete without error, and with intervals remaining
the loop retries the whole list from the first cluster on the next tick. -/
theorem detach_tick_stops_at_blocker :
    (∀ (store store1 : HubStore) (ops ops1 : List Op) (pre post : List String)
        (c : String) (m : ManagedCluster),
      detachTickAux hubClient (store, ops) pre = (Except.ok true, (store1, ops1)) →
      alistLookup store1.managedClusters c = some m →
      isStatusConditionPresentAndEqual m.conditions managedClusterConditionAvailable
        conditionUnknown = false →
      detachTickAux hubClient (store, ops) (pre ++ c :: post) =
        (Except.ok false, (store1, ops1 ++ [Op.getManagedCluster c]))) ∧
    (∀ (σ : Type) (cl : KClient σ) (names : List String) (st st1 : σ)
        (f : σ → σ) (ext : List (σ → σ)),
      detachTickAux cl st names = (Except.ok false, st1) →
      detachManagedClusters cl names st (f :: ext) =
        detachManagedClusters cl names (f st1) ext) := by
  constructor
  · intro store store1 ops ops1 pre post c m hpre hc hcond
    rw [detachTickAux_append, hpre]
    simp only
    rw [detachTickAux_cons]
    simp [hubClient, hubGetManagedCluster, hc, hcond]
  · intro σ cl names st st1 f ext htick
    rw [detachLoop_cons, htick]

/-- Witness for C6 at a concrete input: a cluster whose Availability is
True blocks the tick right after its get, and the loop then retries the
full list. -/
theorem detach_tick_stops_at_blocker_witness :
    detachTickAux hubClient (storeTrueW, []) ([] ++ "c2" :: ["c3"]) =
      (Except.ok false, (storeTrueW, [Op.getManagedCluster "c2"])) ∧
    detachManagedClusters hubClient ["c2"] (storeTrueW, []) [id] =
      detachManagedClusters hubClient ["c2"]
        (id ((storeTrueW, [Op.getManagedCluster "c2"]) : HubState)) [] := by
  constructor
  · have h := detach_tick_stops_at_blocker.1 storeTrueW storeTrueW [] [] [] ["c3"]
      "c2" mcTrueW rfl (by decide) (by decide)
    simpa using h
  · exact detach_tick_stops_at_blocker.2 HubState hubClient ["c2"] (storeTrueW, [])
      (storeTrueW, [Op.getManagedCluster "c2"]) id [] rfl

/-- A listed cluster that is present but has no Availability condition at
all makes a confirmer pass incomplete, survives the pass untouched, and is
never deleted by it. -/
theorem detachTick_blocked (names : List String) (store : HubStore) (ops : List Op)
    (c : String) (m : ManagedCluster)
    (hc : alistLookup store.managedClusters c = some m)
    (hnone : m.conditions.find?
      (fun x => x.condType == managedClusterConditionAvailable) = none)
    (hmem : c ∈ names) :
    (detachTickAux hubClient (store, ops) names).1 ≠ Except.ok true ∧
    alistLookup (detachTickAux hubClient (store, ops) names).2.1.managedClusters c
      = some m ∧
    (Op.deleteManagedCluster c ∈ (detachTickAux hubClient (store, ops) names).2.2 →
      Op.deleteManagedCluster c ∈ ops) := by
  have hcondF : isStatusConditionPresentAndEqual m.conditions
      managedClusterConditionAvailable conditionUnknown = false := by
    simp [isStatusConditionPresentAndEqual, hnone]
  induction names generalizing store ops with
  | nil => cases hmem
  | cons n rest ih =>
    by_cases hnc : n = c
    · subst hnc
      have hst : detachTickAux hubClient (store, ops) (n :: rest) =
          (Except.ok false, (store, ops ++ [Op.getManagedCluster n])) := by
        rw [detachTickAux_cons]
        simp [hubClient, hubGetManagedCluster, hc, hcondF]
      rw [hst]
      refine ⟨by simp, hc, ?_⟩
      intro hm
      rcases List.mem_append.mp hm with h2 | h2
      · exact h2
      · simp at h2
    · have hcr : c ∈ rest := by
        rcases List.mem_cons.mp hmem with h2 | h2
        · exact absurd h2.symm hnc
        · exact h2
      cases hn : alistLookup store.managedClusters n with
      | none =>
        have hst : detachTickAux hubClient (store, ops) (n :: rest) =
            detachTickAux hubClient (store, ops ++ [Op.getManagedCluster n]) rest := by
          rw [detachTickAux_cons]
          simp [hubClient, hubGetManagedCluster, hn]
        rw [hst]
        obtain ⟨h1, h2, h3⟩ := ih store (ops ++ [Op.getManagedCluster n]) hc hcr
        refine ⟨h1, h2, ?_⟩
        intro hm
        rcases List.mem_append.mp (h3 hm) with h4 | h4
        · exact h4
        · simp at h4
      | some m2 =>
        by_cases hcond : isStatusConditionPresentAndEqual m2.conditions
          managedClusterConditionAvailable conditionUnknown
        · have hst : detachTickAux hubClient (store, ops) (n :: rest) =
              detachTickAux hubClient
                ({ store with managedClusters := alistErase store.managedClusters n },
                  ops ++ [Op.getManagedCluster n] ++ [Op.deleteManagedCluster n]) rest := by
            rw [detachTickAux_cons]
            simp [hubClient, hubGetManagedCluster, hn, hcond, hubDeleteManagedCluster]
          rw [hst]
          have hc2 : alistLookup (alistErase store.managedClusters n) c = some m := by
            rw [alistLookup_erase]
            rw [if_neg (fun h => hnc h.symm)]
            exact hc
          obtain ⟨h1, h2, h3⟩ := ih
            { store with managedClusters := alistErase store.managedClusters n }
            (ops ++ [Op.getManagedCluster n] ++ [Op.deleteManagedCluster n]) hc2 hcr
          refine ⟨h1, h2, ?_⟩
          intro hm
          rcases List.mem_append.mp (h3 hm) with h4 | h4
          · rcases List.mem_append.mp h4 with h5 | h5
            · exact h5
            · simp at h5
          · exfalso
            simp at h4
            exact hnc h4.symm
        · have hst : detachTickAux hubClient (store, ops) (n :: rest) =
              (Except.ok false, (store, ops ++ [Op.getManagedCluster n])) := by
            rw [detachTickAux_cons]
            simp [hubClient, hubGetManagedCluster, hn, hcond]
          rw [hst]
          refine ⟨by simp, hc, ?_⟩
          intro hm
          rcases List.mem_append.mp hm with h2 | h2
          · exact h2
          · simp at h2

/-- C9: a cluster whose status has no Availability condition at all is
treated like one with a non-Unknown value: the confirmer never deletes it,
each pass containing it is incomplete (the whole batch is retried on the
next tick), and as long as every inter-tick interference keeps the cluster
present without an Availability condition the poll loop never succeeds —
it blocks until cancellation. -/
theorem no_availability_condition_blocks :
    (∀ (names : List String) (store : HubStore) (ops : List Op) (c : String)
        (m : ManagedCluster),
      alistLookup store.managedClusters c = some m →
      m.conditions.find?
        (fun x => x.condType == managedClusterConditionAvailable) = none →
      c ∈ names →
      (detachTickAux hubClient (store, ops) names).1 ≠ Except.ok true ∧
      alistLookup (detachTickAux hubClient (store, ops) names).2.1.managedClusters c
        = some m ∧
      (Op.deleteManagedCluster c ∈ (detachTickAux hubClient (store, ops) names).2.2 →
        Op.deleteManagedCluster c ∈ ops)) ∧
    (∀ (ext : List (HubState → HubState)) (store : HubStore) (ops : List Op)
        (names : List String) (c : String),
      blockedCluster c (store, ops) →
      (∀ f ∈ ext, ∀ p : HubState, blockedCluster c p → blockedCluster c (f p)) →
      c ∈ names →
      (detachManagedClusters hubClient names (store, ops) ext).1 ≠ PollStatus.success) := by
  constructor
  · intro names store ops c m hc hnone hmem
    exact detachTick_blocked names store ops c m hc hnone hmem
  · intro ext
    induction ext with
    | nil =>
      intro store ops names c hblocked hpres hmem
      obtain ⟨m, hc, hnone⟩ := hblocked
      obtain ⟨h1, _, _⟩ := detachTick_blocked names store ops c m hc hnone hmem
      rw [detachLoop_nil]
      rcases ht : detachTickAux hubClient (store, ops) names with ⟨r, st1⟩
      cases r with
      | error e => simp
      | ok b =>
        cases b with
        | false => simp
        | true =>
          exfalso
          rw [ht] at h1
          exact h1 rfl
    | cons f rest ih =>
      intro store ops names c hblocked hpres hmem
      obtain ⟨m, hc, hnone⟩ := hblocked
      obtain ⟨h1, h2, _⟩ := detachTick_blocked names store ops c m hc hnone hmem
      rw [detachLoop_cons]
      rcases ht : detachTickAux hubClient (store, ops) names with ⟨r, st1⟩
      cases r with
      | error e => simp
      | ok b =>
        cases b with
        | false =>
          simp only
          have hb1 : blockedCluster c st1 := by
            rw [ht] at h2
            exact ⟨m, h2, hnone⟩
          have hb2 : blockedCluster c (f st1) :=
            hpres f (List.mem_cons_self _ _) st1 hb1
          have hext : ∀ g ∈ rest, ∀ p : HubState,
              blockedCluster c p → blockedCluster c (g p) :=
            fun g hg => hpres g (List.mem_cons_of_mem _ hg)
          exact ih (f st1).1 (f st1).2 names c hb2 hext hmem
        | true =>
          exfalso
          rw [ht] at h1
          exact h1 rfl

/-- Witness for C9 at a concrete input: a present cluster with an empty
condition set; the pass is incomplete and the loop does not succeed. -/
theorem no_availability_condition_blocks_witness :
    ((detachTickAux hubClient (storeNoCondW, []) ["c1"]).1 ≠ Except.ok true ∧
      alistLookup
        (detachTickAux hubClient (storeNoCondW, []) ["c1"]).2.1.managedClusters "c1"
        = some mcNoCondW ∧
      (Op.deleteManagedCluster "c1" ∈ (detachTickAux hubClient (storeNoCondW, []) ["c1"]).2.2 →
        Op.deleteManagedCluster "c1" ∈ ([] : List Op))) ∧
    (detachManagedClusters hubClient ["c1"] (storeNoCondW, []) []).1 ≠ PollStatus.success :=
  ⟨no_availability_condition_blocks.1 ["c1"] storeNoCondW [] "c1" mcNoCondW
      (by decide) (by decide) (by decide),
    no_availability_condition_blocks.2 [] storeNoCondW [] ["c1"] "c1"
      ⟨mcNoCondW, by decide, by decide⟩ (by simp) (by decide)⟩

/-- C2 counterexample: a tick in which the delete of an already-deleted
object returns NotFound (the get observed the cluster Unknown, a
concurrent run removed it before our delete).  The poll function returns
that NotFound as a fatal error and the wait ends in failure — the delete
path has no IsNotFound handling, refuting the claim that such a tick does
not return a fatal error. -/
theorem detach_delete_notFound_is_fatal_counterexample :
    racyClient.deleteManagedCluster () "c1" = (Except.error KErr.notFound, ()) ∧
    detachTickAux racyClient () ["c1"] = (Except.error KErr.notFound, ()) ∧
    detachManagedClusters racyClient ["c1"] () [] =
      (PollStatus.failure KErr.notFound, ()) :=
  ⟨rfl, rfl, rfl⟩

/-- C2 amended: in the Detachment Confirmer's delete path any delete
error — NotFound for an already-deleted object included — aborts the wait:
the tick returns that error and the poll loop ends in failure, regardless
of remaining intervals.  Delete-of-absent is not treated as success. -/
theorem detach_delete_error_aborts (σ : Type) (cl : KClient σ) (st st1 st2 : σ)
    (c : String) (rest : List String) (m : ManagedCluster) (e : KErr)
    (ext : List (σ → σ))
    (hget : cl.getManagedCluster st c = (Except.ok m, st1))
    (hcond : isStatusConditionPresentAndEqual m.conditions
      managedClusterConditionAvailable conditionUnknown = true)
    (hdel : cl.deleteManagedCluster st1 c = (Except.error e, st2)) :
    detachTickAux cl st (c :: rest) = (Except.error e, st2) ∧
    detachManagedClusters cl (c :: rest) st ext = (PollStatus.failure e, st2) := by
  have h1 : detachTickAux cl st (c :: rest) = (Except.error e, st2) := by
    rw [detachTickAux_cons, hget]
    simp [hcond, hdel]
  refine ⟨h1, ?_⟩
  cases ext with
  | nil => rw [detachLoop_nil, h1]
  | cons f rest2 => rw [detachLoop_cons, h1]

/-- Witness for the amended C2 at a concrete input: the racing client's
delete returns NotFound and the wait aborts with that error. -/
theorem detach_delete_error_aborts_witness :
    detachTickAux racyClient () ["c1"] = (Except.error KErr.notFound, ()) ∧
    detachManagedClusters racyClient ["c1"] () [] =
      (PollStatus.failure KErr.notFound, ()) :=
  detach_delete_error_aborts Unit racyClient () () () "c1" [] mcUnknownRacy
    KErr.notFound [] rfl (by decide) rfl

/-- C5: when the run reaches the Detachment Confirmer (all preparation
stages succeeded) and the confirmer's wait ends with an error, Sync still
returns success to its caller: the detachment error is only logged, never
propagated as Sync's return value. -/
theorem sync_swallows_detach_failure (σ : Type) (cl : KClient σ)
    (ev : ManagedClusterMigrationFromEvent) (st : σ) (ext : List (σ → σ))
    (st1 st2 st3 : σ) (e : KErr)
    (h1 : syncBootstrapSecrets cl st ev.bootstrapSecret = (Except.ok (), st1))
    (h2 : ensureKlusterletConfig cl st1 (provisionedConfig ev) = (Except.ok (), st2))
    (h3 : annotateManagedClusters cl (provisionedConfig ev).name st2 ev.managedClusters
      = (Except.ok (), st3))
    (h4 : (detachManagedClusters cl ev.managedClusters st3 ext).1 = PollStatus.failure e ∨
      (detachManagedClusters cl ev.managedClusters st3 ext).1 = PollStatus.cancelled) :
    Sync cl ev st ext =
      (Except.ok (), (detachManagedClusters cl ev.managedClusters st3 ext).2) := by
  unfold Sync
  simp only [h1]
  simp only [h2]
  simp only [h3]

/-- Witness for C5 at a concrete input: every preparation stage of the
racing client succeeds, the detachment wait ends in failure, and Sync
still returns success. -/
theorem sync_swallows_detach_failure_witness :
    Sync racyClient evW () [] =
      (Except.ok (), (detachManagedClusters racyClient evW.managedClusters () []).2) ∧
    (detachManagedClusters racyClient evW.managedClusters () []).1 =
      PollStatus.failure KErr.notFound :=
  ⟨sync_swallows_detach_failure Unit racyClient evW () [] () () () KErr.notFound
      rfl rfl rfl (Or.inl rfl),
    rfl⟩

/-- With an empty cluster list the poll loop succeeds on its first pass
without issuing any operation and without consuming an interval. -/
theorem detachLoop_empty_names {σ : Type} (cl : KClient σ) (st : σ)
    (ext : List (σ → σ)) :
    detachManagedClusters cl [] st ext = (PollStatus.success, st) := by
  cases ext with
  | nil => rfl
  | cons f rest => rfl

/-- The Credential Propagator always succeeds on the sequential store. -/
theorem syncBootstrapSecrets_hub_ok (store : HubStore) (ops : List Op) (s : Secret) :
    ∃ q : HubState, syncBootstrapSecrets hubClient (store, ops) s = (Except.ok (), q) := by
  obtain ⟨tr1, h1⟩ := upsertSecret_hub store ops s
  obtain ⟨tr2, h2⟩ := upsertSecret_hub
    { store with secrets := alistInsert store.secrets (s.ns, s.name) s }
    (ops ++ tr1) (backupOf s)
  unfold syncBootstrapSecrets
  simp only [h1]
  simp only [h2]
  exact ⟨_, rfl⟩

/-- The Target-Config Provisioner always succeeds on the sequential store. -/
theorem ensureKlusterletConfig_hub_ok (store : HubStore) (ops : List Op)
    (kc : KlusterletConfig) :
    ∃ q : HubState, ensureKlusterletConfig hubClient (store, ops) kc
      = (Except.ok (), q) := by
  unfold ensureKlusterletConfig
  cases h : alistLookup store.klusterletConfigs kc.name with
  | none =>
    exact ⟨({ store with klusterletConfigs := alistInsert store.klusterletConfigs kc.name kc }, ops ++ [Op.getKlusterletConfig kc.name] ++ [Op.createKlusterletConfig kc]),
      by simp [hubClient, hubGetKlusterletConfig, hubCreateKlusterletConfig, h]⟩
  | some c0 =>
    exact ⟨(store, ops ++ [Op.getKlusterletConfig kc.name]),
      by simp [hubClient, hubGetKlusterletConfig, h]⟩

/-- C10: with an empty cluster-name list the Membership Annotator returns
its state untouched (no store operation), the Detachment Confirmer
succeeds vacuously on the first tick without any get or delete and without
consuming an interval, and Sync returns success with exactly the state the
credential and config stages produced. -/
theorem empty_instruction_only_prep_stages :
    (∀ (σ : Type) (cl : KClient σ) (kcName : String) (st : σ),
      annotateManagedClusters cl kcName st [] = (Except.ok (), st)) ∧
    (∀ (σ : Type) (cl : KClient σ) (st : σ) (ext : List (σ → σ)),
      detachManagedClusters cl [] st ext = (PollStatus.success, st)) ∧
    (∀ (ev : ManagedClusterMigrationFromEvent) (store : HubStore) (ops : List Op)
        (ext : List (HubState → HubState)),
      ev.managedClusters = [] →
      Sync hubClient ev (store, ops) ext =
        (Except.ok (),
          (ensureKlusterletConfig hubClient
            (syncBootstrapSecrets hubClient (store, ops) ev.bootstrapSecret).2
            (provisionedConfig ev)).2)) := by
  refine ⟨fun σ cl kcName st => rfl,
    fun σ cl st ext => detachLoop_empty_names cl st ext, ?_⟩
  intro ev store ops ext hempty
  obtain ⟨q1, hq1⟩ := syncBootstrapSecrets_hub_ok store ops ev.bootstrapSecret
  obtain ⟨store2, ops2⟩ := q1
  obtain ⟨q2, hq2⟩ := ensureKlusterletConfig_hub_ok store2 ops2 (provisionedConfig ev)
  unfold Sync
  simp only [hq1]
  simp only [hq2]
  rw [hempty]
  simp only [annotateManagedClusters]
  rw [detachLoop_empty_names]

/-- Witness for C10 at a concrete input: the empty-batch instruction. -/
theorem empty_instruction_only_prep_stages_witness :
    Sync hubClient evEmptyW (emptyStore, []) [] =
      (Except.ok (),
        (ensureKlusterletConfig hubClient
          (syncBootstrapSecrets hubClient (emptyStore, []) evEmptyW.bootstrapSecret).2
          (provisionedConfig evEmptyW)).2) :=
  empty_instruction_only_prep_stages.2.2 evEmptyW emptyStore [] [] rfl
